import Mathlib

/-!
Verification of the optiwrapper playtime / focus-tracking core.

Shallow embedding of:
  * `time_analysis.py` (log parsing and playtime-segment reconstruction),
  * `optiwrapper/wrapper.py` (`Main` event handlers, `FocusThread`,
    `trigger_exit`, exit codes),
  * `optiwrapper/lib.py` (`watch_focus` event loop),
  * `optiwrapper/hooks/__init__.py` (`WrapperHook` default chaining).

Strings are modelled as `List Char`; `datetime` values are abstracted as
integer timestamps where only ordering/subtraction matters, and as their
raw text where only parsing matters.
-/

/-- Python strings are modelled as lists of characters. -/
abbrev Str := List Char

namespace TimeAnalysis

/-- The `EventType` enum from time_analysis.py. -/
inductive EventType
  | START
  | LEAVE
  | RETURN
  | STOP
deriving DecidableEq, Repr

/-- The `Event` named tuple from time_analysis.py: `event` is `None` for
annotation lines (leading `#`).  The `datetime` is abstracted as an integer
timestamp; `process` only ever subtracts two of them. -/
structure Event where
  event : Option EventType
  time : Int
  line_num : Nat
deriving DecidableEq, Repr

/-- The `Segment` named tuple from time_analysis.py. -/
structure Segment where
  start : Int
  duration : Int
deriving DecidableEq, Repr

/-- A value of the `EVENT_PAIRS` dict: the strings `"keep"` / `"discard"`.
The dict's `None` entries are modelled as `none`. -/
inductive PairAction
  | keep
  | discard
deriving DecidableEq, Repr

/-- The `EVENT_PAIRS` dict from time_analysis.py, transcribed entry by
entry. -/
def EVENT_PAIRS : EventType → EventType → Option PairAction
  | .START, .START => none
  | .START, .STOP => some .keep
  | .START, .LEAVE => some .keep
  | .START, .RETURN => some .discard
  | .STOP, .START => some .discard
  | .STOP, .STOP => none
  | .STOP, .LEAVE => none
  | .STOP, .RETURN => none
  | .LEAVE, .START => none
  | .LEAVE, .STOP => some .discard
  | .LEAVE, .LEAVE => none
  | .LEAVE, .RETURN => some .discard
  | .RETURN, .START => none
  | .RETURN, .STOP => some .keep
  | .RETURN, .LEAVE => some .keep
  | .RETURN, .RETURN => none

/-- An invalid-pair warning printed by `process`: the `(curr_evt, next_evt)`
pair the message is formatted from. -/
abbrev Warning := Event × Event

/-- The `for` loop of `process` from time_analysis.py, with `curr` playing
`curr_evt`.  Annotation events (`event = None`) are skipped exactly as in the
source: an annotation `next_evt` is ignored, an annotation `curr_evt` is
replaced by `next_evt`.  Returns the emitted segments and the printed
invalid-pair warnings, each in order. -/
def processGo (curr : Event) : List Event → List Segment × List Warning
  | [] => ([], [])
  | next :: rest =>
    match next.event with
    | none => processGo curr rest
    | some ne =>
      match curr.event with
      | none => processGo next rest
      | some ce =>
        let tail := processGo next rest
        match EVENT_PAIRS ce ne with
        | none => (tail.1, (curr, next) :: tail.2)
        | some .keep => (⟨curr.time, next.time - curr.time⟩ :: tail.1, tail.2)
        | some .discard => tail

/-- `process` from time_analysis.py: raises `ValueError` on fewer than two
events, otherwise walks the list starting from `events[0]`. -/
def process (events : List Event) : Except Str (List Segment × List Warning) :=
  match events with
  | [] => .error "Not enough data points!".toList
  | [_] => .error "Not enough data points!".toList
  | curr :: rest => .ok (processGo curr rest)

/-- The classification table exactly as the claim words it: the eight listed
(keep / discard) entries, every same-type pair and every remaining
combination invalid. -/
def claimTable (p n : EventType) : Option PairAction :=
  if p = n then none
  else if p = .START ∧ n = .STOP then some .keep
  else if p = .START ∧ n = .LEAVE then some .keep
  else if p = .START ∧ n = .RETURN then some .discard
  else if p = .STOP ∧ n = .START then some .discard
  else if p = .LEAVE ∧ n = .STOP then some .discard
  else if p = .LEAVE ∧ n = .RETURN then some .discard
  else if p = .RETURN ∧ n = .STOP then some .keep
  else if p = .RETURN ∧ n = .LEAVE then some .keep
  else none

/-- The non-annotation (typed) events of a list, in order. -/
def typedOf (l : List Event) : List Event := l.filter (fun e => e.event.isSome)

/-- Consecutive pairs of a list. -/
def pairsOf (l : List Event) : List (Event × Event) := l.zip l.tail

/-- The claim-side classification of a consecutive pair of typed events. -/
def claimAct (p : Event × Event) : Option PairAction :=
  match p.1.event, p.2.event with
  | some a, some b => claimTable a b
  | _, _ => none

/-- Claim-side description of the emitted segments: one segment spanning
prev→next for exactly the consecutive `keep` pairs of non-annotation
events. -/
def segSpec (l : List Event) : List Segment :=
  (pairsOf (typedOf l)).filterMap fun p =>
    if claimAct p = some .keep then some ⟨p.1.time, p.2.time - p.1.time⟩
    else none

/-- Claim-side description of the warnings: exactly the consecutive invalid
pairs of non-annotation events, each logged without emitting a segment. -/
def warnSpec (l : List Event) : List Warning :=
  (pairsOf (typedOf l)).filter fun p => claimAct p = none

theorem event_pairs_eq_claimTable : ∀ p n, EVENT_PAIRS p n = claimTable p n := by
  intro p n
  cases p <;> cases n <;> decide

theorem typedOf_cons_none {e : Event} (h : e.event = none) (l : List Event) :
    typedOf (e :: l) = typedOf l := by
  simp [typedOf, List.filter, h]

theorem typedOf_cons_some {e : Event} {t : EventType} (h : e.event = some t)
    (l : List Event) : typedOf (e :: l) = e :: typedOf l := by
  simp [typedOf, List.filter, h]

theorem pairsOf_cons_cons (a b : Event) (l : List Event) :
    pairsOf (a :: b :: l) = (a, b) :: pairsOf (b :: l) := by
  simp [pairsOf]

theorem pairsOf_single (a : Event) : pairsOf [a] = [] := by
  simp [pairsOf]

theorem pairsOf_nil : pairsOf [] = [] := by
  simp [pairsOf]

theorem segSpec_cons_cons {curr next : Event} {ce ne : EventType}
    (hc : curr.event = some ce) (hn : next.event = some ne) (l : List Event) :
    segSpec (curr :: next :: l)
      = (if claimTable ce ne = some .keep then
          [⟨curr.time, next.time - curr.time⟩] else [])
        ++ segSpec (next :: l) := by
  unfold segSpec
  rw [typedOf_cons_some hc, typedOf_cons_some hn, pairsOf_cons_cons,
    List.filterMap_cons, ← typedOf_cons_some hn]
  by_cases h : claimTable ce ne = some PairAction.keep <;>
    simp [claimAct, hc, hn, h]

theorem warnSpec_cons_cons {curr next : Event} {ce ne : EventType}
    (hc : curr.event = some ce) (hn : next.event = some ne) (l : List Event) :
    warnSpec (curr :: next :: l)
      = (if claimTable ce ne = none then [(curr, next)] else [])
        ++ warnSpec (next :: l) := by
  unfold warnSpec
  rw [typedOf_cons_some hc, typedOf_cons_some hn, pairsOf_cons_cons,
    List.filter_cons, ← typedOf_cons_some hn]
  by_cases h : claimTable ce ne = none <;> simp [claimAct, hc, hn, h]

/-- The walk of `process` computes exactly the claim-side pairwise
classification. -/
theorem processGo_eq_spec :
    ∀ (rest : List Event) (curr : Event),
      processGo curr rest = (segSpec (curr :: rest), warnSpec (curr :: rest)) := by
  intro rest
  induction rest with
  | nil =>
    intro curr
    cases hc : curr.event <;>
      simp [processGo, segSpec, warnSpec, pairsOf, typedOf, List.filter, hc]
  | cons next rest ih =>
    intro curr
    cases hn : next.event with
    | none =>
      have hseg : segSpec (curr :: next :: rest) = segSpec (curr :: rest) := by
        unfold segSpec
        cases hc : curr.event with
        | none =>
          rw [typedOf_cons_none hc, typedOf_cons_none hn, typedOf_cons_none hc]
        | some ce =>
          rw [typedOf_cons_some hc, typedOf_cons_none hn, typedOf_cons_some hc]
      have hwarn : warnSpec (curr :: next :: rest) = warnSpec (curr :: rest) := by
        unfold warnSpec
        cases hc : curr.event with
        | none =>
          rw [typedOf_cons_none hc, typedOf_cons_none hn, typedOf_cons_none hc]
        | some ce =>
          rw [typedOf_cons_some hc, typedOf_cons_none hn, typedOf_cons_some hc]
      rw [hseg, hwarn, ← ih curr]
      simp [processGo, hn]
    | some ne =>
      cases hc : curr.event with
      | none =>
        have hseg : segSpec (curr :: next :: rest) = segSpec (next :: rest) := by
          unfold segSpec; rw [typedOf_cons_none hc]
        have hwarn : warnSpec (curr :: next :: rest) = warnSpec (next :: rest) := by
          unfold warnSpec; rw [typedOf_cons_none hc]
        rw [hseg, hwarn, ← ih next]
        simp [processGo, hn, hc]
      | some ce =>
        have hgo : processGo curr (next :: rest)
            = match EVENT_PAIRS ce ne with
              | none =>
                ((processGo next rest).1, (curr, next) :: (processGo next rest).2)
              | some .keep =>
                (⟨curr.time, next.time - curr.time⟩ :: (processGo next rest).1,
                  (processGo next rest).2)
              | some .discard => processGo next rest := by
          simp only [processGo, hn, hc]
        rw [segSpec_cons_cons hc hn, warnSpec_cons_cons hc hn, hgo, ih next,
          event_pairs_eq_claimTable]
        cases hp : claimTable ce ne with
        | none => simp [hp]
        | some a => cases a <;> simp [hp]

/-- C1: for every list of typed log events, the segment-reconstruction walk
classifies each consecutive pair of non-annotation events exactly by the
fixed table — (Start,Stop)=keep, (Start,Leave)=keep, (Start,Return)=discard,
(Stop,Start)=discard, (Leave,Stop)=discard, (Leave,Return)=discard,
(Return,Stop)=keep, (Return,Leave)=keep, all same-type pairs and remaining
combinations invalid — emitting a segment spanning prev→next exactly for the
keep pairs, no segment for discard pairs, and for invalid pairs a logged
warning with no segment and no exception, always advancing to the next
event. -/
theorem c1_event_pair_walk :
    (∀ p n, TimeAnalysis.EVENT_PAIRS p n = TimeAnalysis.claimTable p n) ∧
    ∀ (events : List TimeAnalysis.Event), 2 ≤ events.length →
      TimeAnalysis.process events
        = .ok (TimeAnalysis.segSpec events, TimeAnalysis.warnSpec events) := by
  refine ⟨TimeAnalysis.event_pairs_eq_claimTable, ?_⟩
  intro events h
  match events with
  | [] => simp at h
  | [_] => simp at h
  | curr :: next :: rest =>
    show Except.ok (TimeAnalysis.processGo curr (next :: rest)) = _
    rw [TimeAnalysis.processGo_eq_spec]

/-- Witness for C1 at the spec's own four-line example log. -/
theorem c1_event_pair_walk_witness :
    2 ≤ ([⟨some .START, 0, 1⟩, ⟨some .LEAVE, 10, 2⟩, ⟨some .RETURN, 20, 3⟩,
          ⟨some .STOP, 30, 4⟩] : List TimeAnalysis.Event).length ∧
    TimeAnalysis.process
        [⟨some .START, 0, 1⟩, ⟨some .LEAVE, 10, 2⟩, ⟨some .RETURN, 20, 3⟩,
          ⟨some .STOP, 30, 4⟩]
      = .ok (TimeAnalysis.segSpec
              [⟨some .START, 0, 1⟩, ⟨some .LEAVE, 10, 2⟩,
                ⟨some .RETURN, 20, 3⟩, ⟨some .STOP, 30, 4⟩],
            TimeAnalysis.warnSpec
              [⟨some .START, 0, 1⟩, ⟨some .LEAVE, 10, 2⟩,
                ⟨some .RETURN, 20, 3⟩, ⟨some .STOP, 30, 4⟩]) :=
  ⟨by decide, c1_event_pair_walk.2 _ (by decide)⟩

end TimeAnalysis

namespace Wrapper

/-- The `ExitCode` enum from wrapper.py. -/
inductive ExitCode
  | SUCCESS
  | KILLED
  | NO_GPU
  | NO_GAME_WINDOW
  | NO_GAME_PROCESS
  | MULTIPLE_GAME_PROCESSES
deriving DecidableEq, Repr

/-- The numeric values of the `ExitCode` enum from wrapper.py. -/
def ExitCode.value : ExitCode → Nat
  | .SUCCESS => 0
  | .KILLED => 1
  | .NO_GPU => 2
  | .NO_GAME_WINDOW => 3
  | .NO_GAME_PROCESS => 4
  | .MULTIPLE_GAME_PROCESSES => 5

/-- The `Event` enum from wrapper.py (lifecycle transitions written to the
playtime log by `Main.log_time`). -/
inductive Event
  | START
  | STOP
  | UNFOCUS
  | FOCUS
  | DIE
deriving DecidableEq, Repr

/-- The state touched by `Main`'s termination paths: the module-global
`lib.running` flag, `Main.stop_event`, `Main.exit_code`, and the playtime
log (`Main.log_time` appends one entry per call).  Hook dispatch is modelled
separately (see `HookRun`). -/
structure MState where
  lib_running : Bool
  stop_event : Bool
  exit_code : ExitCode
  tlog : List Event
deriving DecidableEq, Repr

/-- `Main.log_time`: appends one entry for the given event to the playtime
log. -/
def log_time (e : Event) (s : MState) : MState :=
  { s with tlog := s.tlog ++ [e] }

/-- `Main.trigger_exit` from wrapper.py: sets the stop event and records the
exit code only when the stop event is not yet set. -/
def trigger_exit (c : ExitCode) (s : MState) : MState :=
  if s.stop_event then s else { s with stop_event := true, exit_code := c }

/-- `Main.stopped` from wrapper.py: clears `lib.running`, then logs one
`DIE` ("wrapper died") or `STOP` ("game stopped") entry.  The subsequent
hook loop does not touch this state (it is modelled in `HookRun`). -/
def stopped (killed : Bool) (s : MState) : MState :=
  log_time (if killed then .DIE else .STOP) { s with lib_running := false }

/-- `cb_signal_handler` from `Main.run`: unconditionally runs
`stopped(killed=True)` and then `trigger_exit(ExitCode.KILLED)`. -/
def cb_signal_handler (s : MState) : MState :=
  trigger_exit .KILLED (stopped true s)

/-- An externally driven step during a run: the game subprocess exiting
(`wait_for_process` / `find_process` call `trigger_exit(SUCCESS)`), or a
delivery of SIGINT/SIGTERM (runs `cb_signal_handler`). -/
inductive RStep
  | procExit
  | signal
deriving DecidableEq, Repr

/-- Effect of one external step on the termination state. -/
def runStep (s : MState) : RStep → MState
  | .procExit => trigger_exit .SUCCESS s
  | .signal => cb_signal_handler s

/-- A sequence of external steps, applied in order. -/
def runSteps (s : MState) (steps : List RStep) : MState :=
  steps.foldl runStep s

/-- The teardown in `Main.run` after `_run_game` returns: the `try` body
runs `stopped()` if `lib.running` is still set, and the `finally` block does
the same again. -/
def teardown (s : MState) : MState :=
  let s1 := if s.lib_running then stopped false s else s
  if s1.lib_running then stopped false s1 else s1

/-- Is a log entry a stop-type entry ("game stopped" or "wrapper died")? -/
def isStopEntry : Event → Bool
  | .STOP => true
  | .DIE => true
  | _ => false

/-- Number of stop-type entries in a log. -/
def countStop (l : List Event) : Nat := (l.filter isStopEntry).length

/-- Is a step a signal delivery? -/
def isSignal : RStep → Bool
  | .signal => true
  | .procExit => false

/-- Number of signal deliveries in a step sequence. -/
def numSignals (steps : List RStep) : Nat := (steps.filter isSignal).length

theorem trigger_exit_tlog (c : ExitCode) (s : MState) :
    (trigger_exit c s).tlog = s.tlog := by
  unfold trigger_exit; split <;> rfl

theorem trigger_exit_lib_running (c : ExitCode) (s : MState) :
    (trigger_exit c s).lib_running = s.lib_running := by
  unfold trigger_exit; split <;> rfl

theorem trigger_exit_stop_event (c : ExitCode) (s : MState) :
    (trigger_exit c s).stop_event = true := by
  unfold trigger_exit; split <;> simp_all

theorem trigger_exit_of_stop_event {s : MState} (h : s.stop_event = true)
    (c : ExitCode) : trigger_exit c s = s := by
  unfold trigger_exit; simp [h]

theorem countStop_append (l1 l2 : List Event) :
    countStop (l1 ++ l2) = countStop l1 + countStop l2 := by
  simp [countStop, List.filter_append]

theorem countStop_runStep (s : MState) (st : RStep) :
    countStop (runStep s st).tlog
      = countStop s.tlog + (if isSignal st then 1 else 0) := by
  cases st with
  | procExit => simp [runStep, trigger_exit_tlog, isSignal]
  | signal =>
    simp [runStep, cb_signal_handler, trigger_exit_tlog, stopped, log_time,
      isSignal, countStop_append, countStop, isStopEntry]

theorem countStop_runSteps (steps : List RStep) (s : MState) :
    countStop (runSteps s steps).tlog = countStop s.tlog + numSignals steps := by
  induction steps generalizing s with
  | nil => simp [runSteps, numSignals]
  | cons st rest ih =>
    have : runSteps s (st :: rest) = runSteps (runStep s st) rest := by
      simp [runSteps]
    rw [this, ih, countStop_runStep]
    have hsig : numSignals (st :: rest)
        = (if isSignal st then 1 else 0) + numSignals rest := by
      cases st
      · simp [numSignals, isSignal, List.filter_cons]
      · simp [numSignals, isSignal, List.filter_cons]
        omega
    rw [hsig]
    omega

theorem countStop_teardown (s : MState) :
    countStop (teardown s).tlog
      = countStop s.tlog + (if s.lib_running then 1 else 0) := by
  unfold teardown
  by_cases h : s.lib_running
  · simp [h, stopped, log_time, countStop_append, countStop, isStopEntry]
  · simp [h]

/-- C10: once `trigger_exit` has been called, every later call leaves both
the stop event and the recorded exit code unchanged, so the final exit code
is the one supplied by the first call. -/
theorem c10_trigger_exit_first_wins :
    ∀ (s : MState) (c : ExitCode) (cs : List ExitCode),
      cs.foldl (fun t c2 => trigger_exit c2 t) (trigger_exit c s)
        = trigger_exit c s ∧
      (s.stop_event = false →
        (trigger_exit c s).stop_event = true ∧
        (trigger_exit c s).exit_code = c) := by
  intro s c cs
  constructor
  · have hfix : ∀ (t : MState), t.stop_event = true →
        ∀ (l : List ExitCode), l.foldl (fun u c2 => trigger_exit c2 u) t = t := by
      intro t ht l
      induction l with
      | nil => rfl
      | cons a l ih =>
        simp only [List.foldl, trigger_exit_of_stop_event ht]
        exact ih
    exact hfix _ (trigger_exit_stop_event c s) cs
  · intro h
    refine ⟨trigger_exit_stop_event c s, ?_⟩
    unfold trigger_exit
    simp [h]

/-- Witness for C10: a first `trigger_exit` on a fresh state records its
code and sets the stop event. -/
theorem c10_trigger_exit_first_wins_witness :
    (MState.mk true false .SUCCESS []).stop_event = false ∧
    (trigger_exit .NO_GAME_WINDOW ⟨true, false, .SUCCESS, []⟩).stop_event
      = true ∧
    (trigger_exit .NO_GAME_WINDOW ⟨true, false, .SUCCESS, []⟩).exit_code
      = .NO_GAME_WINDOW :=
  ⟨rfl,
    (c10_trigger_exit_first_wins ⟨true, false, .SUCCESS, []⟩
      .NO_GAME_WINDOW []).2 rfl⟩

/-- C8 counterexample: in a run where SIGTERM is delivered twice,
`cb_signal_handler` runs `stopped(killed=True)` unconditionally both times,
so two "wrapper died" stop-type entries are appended — refuting "at most one
stop-type entry per run across all termination paths". -/
theorem c8_counterexample :
    (teardown (runSteps ⟨true, false, .SUCCESS, []⟩ [.signal, .signal])).tlog
      = [.DIE, .DIE] ∧
    countStop
      (teardown (runSteps ⟨true, false, .SUCCESS, []⟩
        [.signal, .signal])).tlog = 2 := by
  decide

/-- C8 amended: the `lib.running`-guarded paths (normal subprocess exit and
the try/finally teardown in `run`) append at most one stop-type entry in
total, but every invocation of the external-signal handler unconditionally
appends one stop-type entry, so a run appends exactly
`numSignals + (1 if the teardown still sees lib.running)` stop-type
entries — at most one whenever no signal handler runs. -/
theorem c8_stop_entries :
    ∀ (s0 : MState) (pre post : List RStep),
      countStop (runSteps (teardown (runSteps s0 pre)) post).tlog
        = countStop s0.tlog + numSignals pre
          + (if (runSteps s0 pre).lib_running then 1 else 0)
          + numSignals post ∧
      (numSignals pre = 0 → numSignals post = 0 →
        countStop (runSteps (teardown (runSteps s0 pre)) post).tlog
          ≤ countStop s0.tlog + 1) := by
  intro s0 pre post
  rw [countStop_runSteps post, countStop_teardown, countStop_runSteps pre]
  refine ⟨rfl, ?_⟩
  intro h2 h3
  rw [h2, h3]
  split <;> omega

/-- Witness for C8 (amended) at a signal-free run: normal subprocess exit
followed by teardown appends at most one stop-type entry. -/
theorem c8_stop_entries_witness :
    numSignals [RStep.procExit] = 0 ∧
    numSignals ([] : List RStep) = 0 ∧
    countStop (runSteps (teardown (runSteps ⟨true, false, .SUCCESS, []⟩
        [RStep.procExit])) []).tlog
      ≤ countStop (MState.mk true false .SUCCESS []).tlog + 1 :=
  ⟨rfl, rfl,
    (c8_stop_entries ⟨true, false, .SUCCESS, []⟩ [RStep.procExit] []).2
      rfl rfl⟩

/-- Outcome of the window-wait loop in `FocusThread.run`. -/
inductive SearchOutcome
  | timeout
  | found (wins : List Nat)
deriving DecidableEq, Repr

/-- The window-wait loop of `FocusThread.run`: repeatedly polls
`xdo_search_windows`; each list in `polls` is one poll result, and
exhausting `polls` models `time.time()` passing
`window_start_time + WINDOW_WAIT_TIME` (the loop repolls every 0.1 s
while `lib.running` holds, which this model keeps true). -/
def windowWaitLoop : List (List Nat) → SearchOutcome
  | [] => .timeout
  | wins :: rest => if wins.isEmpty then windowWaitLoop rest else .found wins

/-- On timeout `FocusThread.run` calls
`trigger_exit(ExitCode.NO_GAME_WINDOW)`; on success it proceeds to focus
tracking without touching the termination state. -/
def focusThreadWindowResult (polls : List (List Nat)) (s : MState) : MState :=
  match windowWaitLoop polls with
  | .timeout => trigger_exit .NO_GAME_WINDOW s
  | .found _ => s

/-- Outcome of the process-discovery loop in `Main.find_process`. -/
inductive FindOutcome
  | timeout
  | multiple (procs : List Nat)
  | found (p : Nat)
deriving DecidableEq, Repr

/-- The polling loop of `Main.find_process`: each list in `polls` is one
`pgrep` result; more than one match aborts, exactly one match leaves the
loop, and exhausting `polls` models the `PROCESS_WAIT_TIME` deadline. -/
def findProcessLoop : List (List Nat) → FindOutcome
  | [] => .timeout
  | [] :: rest => findProcessLoop rest
  | [p] :: _ => .found p
  | procs :: _ => .multiple procs

/-- Exit-code effect of `Main.find_process`: a timeout triggers
`NO_GAME_PROCESS`, ambiguity triggers `MULTIPLE_GAME_PROCESSES`, success
goes on to wait for the found process. -/
def findProcessResult (polls : List (List Nat)) (s : MState) : MState :=
  match findProcessLoop polls with
  | .timeout => trigger_exit .NO_GAME_PROCESS s
  | .multiple _ => trigger_exit .MULTIPLE_GAME_PROCESSES s
  | .found _ => s

theorem windowWaitLoop_timeout {polls : List (List Nat)}
    (h : ∀ w ∈ polls, w = []) : windowWaitLoop polls = .timeout := by
  induction polls with
  | nil => rfl
  | cons w rest ih =>
    have hw : w = [] := h w (by simp)
    simp [windowWaitLoop, hw]
    exact ih fun q hq => h q (by simp [hq])

theorem findProcessLoop_timeout {polls : List (List Nat)}
    (h : ∀ p ∈ polls, p = []) : findProcessLoop polls = .timeout := by
  induction polls with
  | nil => rfl
  | cons p rest ih =>
    have hp : p = [] := h p (by simp)
    subst hp
    simp only [findProcessLoop]
    exact ih fun q hq => h q (by simp [hq])

theorem findProcessLoop_multiple (pre : List (List Nat)) (ps : List Nat)
    (rest : List (List Nat)) (hpre : ∀ q ∈ pre, q = [])
    (hps : 2 ≤ ps.length) :
    findProcessLoop (pre ++ ps :: rest) = .multiple ps := by
  induction pre with
  | nil =>
    match ps, hps with
    | a :: b :: t, _ => simp [findProcessLoop]
  | cons q pre ih =>
    have hq : q = [] := hpre q (by simp)
    subst hq
    simp only [List.cons_append, findProcessLoop]
    exact ih fun r hr => hpre r (by simp [hr])

theorem trigger_exit_code_of_fresh {s : MState} (h : s.stop_event = false)
    (c : ExitCode) : (trigger_exit c s).exit_code = c := by
  unfold trigger_exit
  simp [h]

/-- C9: a run whose window search never finds a window before the deadline
exits with code 3 (`NO_GAME_WINDOW`); a run whose process discovery never
finds a match before its deadline exits with code 4 (`NO_GAME_PROCESS`);
and a run whose process discovery finds more than one match exits with
code 5 (`MULTIPLE_GAME_PROCESSES`) — three distinct codes from the fixed
taxonomy. -/
theorem c9_discovery_exit_codes :
    ∀ (s : MState), s.stop_event = false →
      (∀ (wpolls : List (List Nat)), (∀ w ∈ wpolls, w = []) →
        (focusThreadWindowResult wpolls s).exit_code = .NO_GAME_WINDOW ∧
        (focusThreadWindowResult wpolls s).exit_code.value = 3) ∧
      (∀ (ppolls : List (List Nat)), (∀ p ∈ ppolls, p = []) →
        (findProcessResult ppolls s).exit_code = .NO_GAME_PROCESS ∧
        (findProcessResult ppolls s).exit_code.value = 4) ∧
      (∀ (pre rest : List (List Nat)) (ps : List Nat),
        (∀ q ∈ pre, q = []) → 2 ≤ ps.length →
        (findProcessResult (pre ++ ps :: rest) s).exit_code
          = .MULTIPLE_GAME_PROCESSES ∧
        (findProcessResult (pre ++ ps :: rest) s).exit_code.value = 5) := by
  intro s hs
  refine ⟨?_, ?_, ?_⟩
  · intro wpolls hw
    have : focusThreadWindowResult wpolls s = trigger_exit .NO_GAME_WINDOW s := by
      unfold focusThreadWindowResult
      rw [windowWaitLoop_timeout hw]
    rw [this, trigger_exit_code_of_fresh hs]
    exact ⟨rfl, rfl⟩
  · intro ppolls hp
    have : findProcessResult ppolls s = trigger_exit .NO_GAME_PROCESS s := by
      unfold findProcessResult
      rw [findProcessLoop_timeout hp]
    rw [this, trigger_exit_code_of_fresh hs]
    exact ⟨rfl, rfl⟩
  · intro pre rest ps hpre hps
    have : findProcessResult (pre ++ ps :: rest) s
        = trigger_exit .MULTIPLE_GAME_PROCESSES s := by
      unfold findProcessResult
      rw [findProcessLoop_multiple pre ps rest hpre hps]
    rw [this, trigger_exit_code_of_fresh hs]
    exact ⟨rfl, rfl⟩

/-- Witness for C9: concrete all-empty window polls, all-empty process
polls, and a process poll run finding two matches. -/
theorem c9_discovery_exit_codes_witness :
    (focusThreadWindowResult [[], []]
      ⟨true, false, .SUCCESS, []⟩).exit_code.value = 3 ∧
    (findProcessResult [[]] ⟨true, false, .SUCCESS, []⟩).exit_code.value = 4 ∧
    (findProcessResult [[], [7, 8]]
      ⟨true, false, .SUCCESS, []⟩).exit_code.value = 5 :=
  ⟨((c9_discovery_exit_codes ⟨true, false, .SUCCESS, []⟩ rfl).1
      [[], []] (by decide)).2,
    ((c9_discovery_exit_codes ⟨true, false, .SUCCESS, []⟩ rfl).2.1
      [[]] (by decide)).2,
    ((c9_discovery_exit_codes ⟨true, false, .SUCCESS, []⟩ rfl).2.2
      [[]] [] [7, 8] (by decide) (by decide)).2⟩

end Wrapper

namespace Watch

/-- Xlib constant `X.NotifyNormal`. -/
def NotifyNormal : Nat := 0

/-- Xlib constant `X.NotifyWhileGrabbed`. -/
def NotifyWhileGrabbed : Nat := 3

/-- Xlib constant `X.NotifyInferior` (a focus detail). -/
def NotifyInferior : Nat := 2

/-- Xlib constant `X.NONE`. -/
def XNONE : Nat := 0

/-- A raw X event as seen by the main loop of `watch_focus` in lib.py:
focus-change events carry the window id, the mode and the detail; a
`DestroyNotify` carries the destroyed window. -/
inductive XEvent
  | focusIn (window mode detail : Nat)
  | focusOut (window mode detail : Nat)
  | destroyNotify (window : Nat)
  | otherEvent
deriving DecidableEq, Repr

/-- A callback invocation performed by the loop, recording the fields of
the event that triggered it and the tracked `focused` window just before
the callback ran. -/
inductive CB
  | focusInCB (window mode detail prevFocused : Nat)
  | focusOutCB (window mode detail prevFocused : Nat)
deriving DecidableEq, Repr

/-- The mode of the event a callback was invoked for. -/
def CB.mode : CB → Nat
  | .focusInCB _ m _ _ => m
  | .focusOutCB _ m _ _ => m

/-- The window of the event a callback was invoked for. -/
def CB.window : CB → Nat
  | .focusInCB w _ _ _ => w
  | .focusOutCB w _ _ _ => w

/-- The detail of the event a callback was invoked for. -/
def CB.detail : CB → Nat
  | .focusInCB _ _ d _ => d
  | .focusOutCB _ _ d _ => d

/-- The tracked `focused` window just before the callback ran. -/
def CB.prevFocused : CB → Nat
  | .focusInCB _ _ _ f => f
  | .focusOutCB _ _ _ f => f

/-- Whether the callback is the focus-out callback. -/
def CB.isOut : CB → Bool
  | .focusInCB _ _ _ _ => false
  | .focusOutCB _ _ _ _ => true

/-- The mode filter of `watch_focus`: only `NotifyNormal` and
`NotifyWhileGrabbed` events are processed (`continue` otherwise). -/
def modeOk (m : Nat) : Bool :=
  m = NotifyNormal || m = NotifyWhileGrabbed

/-- One iteration of the `watch_focus` main loop on a focus event, from
lib.py: the mode filter, then the `FocusIn` branch (fires only when the
event window differs from `focused`, and retargets `focused`) and the
`FocusOut` branch (fires only for the tracked `focused` window and a
detail other than `NotifyInferior`, and resets `focused` to `X.NONE`).
Returns the new `focused` value and the callbacks invoked. -/
def watchStep (focused : Nat) : XEvent → Nat × List CB
  | .focusIn w m d =>
    if !modeOk m then (focused, [])
    else if focused ≠ w then (w, [.focusInCB w m d focused])
    else (focused, [])
  | .focusOut w m d =>
    if !modeOk m then (focused, [])
    else if focused = w && d ≠ NotifyInferior then
      (XNONE, [.focusOutCB w m d focused])
    else (focused, [])
  | .destroyNotify _ => (focused, [])
  | .otherEvent => (focused, [])

/-- The `watch_focus` main loop over a finite stream of events, with
`lib.running` held true: a `DestroyNotify` yields the closed window to the
consumer (`FocusThread.run` pulls a single value with `next`), ending the
stream of callbacks. -/
def watchEvents (focused : Nat) : List XEvent → List CB
  | [] => []
  | .destroyNotify _ :: _ => []
  | e :: rest =>
    (watchStep focused e).2 ++ watchEvents (watchStep focused e).1 rest

/-- The controller-side state affected by focus callbacks: `lib.running`,
the playtime log, and the number of completed hook-dispatch rounds of
`Main.focused` / `Main.unfocused` (each call iterates once over all loaded
hooks). -/
structure Ctrl where
  running : Bool
  tlog : List Wrapper.Event
  focusRounds : Nat
  unfocusRounds : Nat
deriving DecidableEq, Repr

/-- `Main.focused` from wrapper.py: logs a `FOCUS` ("user returned") entry
when `lib.running` holds, then runs one round of every loaded hook's
`on_focus`. -/
def mainFocused (c : Ctrl) : Ctrl :=
  { c with
    tlog := c.tlog ++ (if c.running then [Wrapper.Event.FOCUS] else []),
    focusRounds := c.focusRounds + 1 }

/-- `Main.unfocused` from wrapper.py: logs an `UNFOCUS` ("user left") entry
when `lib.running` holds, then runs one round of every loaded hook's
`on_unfocus`. -/
def mainUnfocused (c : Ctrl) : Ctrl :=
  { c with
    tlog := c.tlog ++ (if c.running then [Wrapper.Event.UNFOCUS] else []),
    unfocusRounds := c.unfocusRounds + 1 }

/-- `FocusThread` wires `watch_focus`'s callbacks to `Main.focused` /
`Main.unfocused` (serialized onto the event loop). -/
def dispatchCB (c : Ctrl) : CB → Ctrl
  | .focusInCB _ _ _ _ => mainFocused c
  | .focusOutCB _ _ _ _ => mainUnfocused c

/-- Deliver a list of callbacks to the controller in order. -/
def dispatchAll (c : Ctrl) (cbs : List CB) : Ctrl :=
  cbs.foldl dispatchCB c

/-- C2: delivering a Focus transition twice in a row with no intervening
Unfocus produces exactly one playtime-log entry and exactly one round of
hook `on_focus` dispatch; the duplicate `FocusIn` while the window is
already the tracked focus is a no-op. -/
theorem c2_duplicate_focus_idempotent :
    ∀ (f w m1 m2 d1 d2 : Nat) (c : Ctrl),
      modeOk m1 = true → modeOk m2 = true → c.running = true →
      (f ≠ w →
        watchEvents f [XEvent.focusIn w m1 d1, XEvent.focusIn w m2 d2]
          = [CB.focusInCB w m1 d1 f] ∧
        (dispatchAll c (watchEvents f
            [XEvent.focusIn w m1 d1, XEvent.focusIn w m2 d2])).tlog
          = c.tlog ++ [Wrapper.Event.FOCUS] ∧
        (dispatchAll c (watchEvents f
            [XEvent.focusIn w m1 d1, XEvent.focusIn w m2 d2])).focusRounds
          = c.focusRounds + 1) ∧
      (f = w →
        watchEvents f [XEvent.focusIn w m1 d1, XEvent.focusIn w m2 d2]
          = [] ∧
        dispatchAll c (watchEvents f
            [XEvent.focusIn w m1 d1, XEvent.focusIn w m2 d2]) = c) := by
  intro f w m1 m2 d1 d2 c h1 h2 hr
  constructor
  · intro hne
    have hw : watchEvents f [XEvent.focusIn w m1 d1, XEvent.focusIn w m2 d2]
        = [CB.focusInCB w m1 d1 f] := by
      simp [watchEvents, watchStep, h1, h2, hne]
    refine ⟨hw, ?_, ?_⟩ <;>
      simp [hw, dispatchAll, dispatchCB, mainFocused, hr]
  · intro heq
    subst heq
    have hw : watchEvents f [XEvent.focusIn f m1 d1, XEvent.focusIn f m2 d2]
        = [] := by
      simp [watchEvents, watchStep, h1, h2]
    exact ⟨hw, by simp [hw, dispatchAll]⟩

/-- Witness for C2 at a concrete window and mode. -/
theorem c2_duplicate_focus_idempotent_witness :
    modeOk 0 = true ∧ (0 : Nat) ≠ 5 ∧
    watchEvents 0 [XEvent.focusIn 5 0 0, XEvent.focusIn 5 0 0]
      = [CB.focusInCB 5 0 0 0] ∧
    (dispatchAll ⟨true, [], 0, 0⟩ (watchEvents 0
        [XEvent.focusIn 5 0 0, XEvent.focusIn 5 0 0])).tlog
      = [Wrapper.Event.FOCUS] ∧
    (dispatchAll ⟨true, [], 0, 0⟩ (watchEvents 0
        [XEvent.focusIn 5 0 0, XEvent.focusIn 5 0 0])).focusRounds = 1 := by
  have h := (c2_duplicate_focus_idempotent 0 5 0 0 0 0 ⟨true, [], 0, 0⟩
    (by decide) (by decide) rfl).1 (by decide)
  exact ⟨by decide, by decide, h.1, h.2.1, h.2.2⟩

/-- C5: the watch loop never invokes a callback for a focus-change event
whose mode is not `NotifyNormal` or `NotifyWhileGrabbed`, and never invokes
the focus-out callback for an event whose detail is `NotifyInferior` or
whose window is not the currently tracked focused window. -/
theorem c5_focus_event_filtering :
    ∀ (f : Nat) (evts : List XEvent) (cb : CB), cb ∈ watchEvents f evts →
      modeOk cb.mode = true ∧
      (cb.isOut = true →
        cb.detail ≠ NotifyInferior ∧ cb.prevFocused = cb.window) := by
  intro f evts
  induction evts generalizing f with
  | nil => intro cb h; simp [watchEvents] at h
  | cons e rest ih =>
    intro cb h
    cases e with
    | destroyNotify w => simp [watchEvents] at h
    | otherEvent =>
      have : cb ∈ watchEvents f rest := by
        simpa [watchEvents, watchStep] using h
      exact ih f cb this
    | focusIn w m d =>
      by_cases hm : modeOk m
      · by_cases hf : f = w
        · have : cb ∈ watchEvents f rest := by
            simpa [watchEvents, watchStep, hm, hf] using h
          exact ih f cb this
        · have : cb = CB.focusInCB w m d f ∨ cb ∈ watchEvents w rest := by
            simpa [watchEvents, watchStep, hm, hf] using h
          rcases this with hcb | hcb
          · subst hcb
            exact ⟨by simpa [CB.mode] using hm, by simp [CB.isOut]⟩
          · exact ih w cb hcb
      · have : cb ∈ watchEvents f rest := by
          simpa [watchEvents, watchStep, hm] using h
        exact ih f cb this
    | focusOut w m d =>
      by_cases hm : modeOk m
      · by_cases hfd : f = w ∧ d ≠ NotifyInferior
        · have : cb = CB.focusOutCB w m d f ∨ cb ∈ watchEvents XNONE rest := by
            simpa [watchEvents, watchStep, hm, hfd.1, hfd.2] using h
          rcases this with hcb | hcb
          · subst hcb
            refine ⟨by simpa [CB.mode] using hm, ?_⟩
            intro _
            exact ⟨by simpa [CB.detail] using hfd.2,
              by simp [CB.prevFocused, CB.window, hfd.1]⟩
          · exact ih XNONE cb hcb
        · have : cb ∈ watchEvents f rest := by
            simpa [watchEvents, watchStep, hm, hfd] using h
          exact ih f cb this
      · have : cb ∈ watchEvents f rest := by
          simpa [watchEvents, watchStep, hm] using h
        exact ih f cb this

/-- Witness for C5 at a concrete event list with one passing focus-in. -/
theorem c5_focus_event_filtering_witness :
    CB.focusInCB 5 0 0 0 ∈ watchEvents 0 [XEvent.focusIn 5 0 0] ∧
    modeOk (CB.focusInCB 5 0 0 0).mode = true ∧
    ((CB.focusInCB 5 0 0 0).isOut = true →
      (CB.focusInCB 5 0 0 0).detail ≠ NotifyInferior ∧
      (CB.focusInCB 5 0 0 0).prevFocused = (CB.focusInCB 5 0 0 0).window) :=
  ⟨by decide,
    c5_focus_event_filtering 0 [XEvent.focusIn 5 0 0]
      (CB.focusInCB 5 0 0 0) (by decide)⟩

end Watch

namespace HookRun

/-- A loaded hook as seen by the `Main.stopped` loop: its registry name and
whether its `on_stop` coroutine raises. -/
structure StopHook where
  name : Nat
  stop_raises : Bool
deriving DecidableEq, Repr

/-- The `for hook in hooks.get_loaded_hooks().values(): await hook.on_stop()`
loop of `Main.stopped`: there is no try/except around the call, so the
first raising hook ends the loop and its exception propagates.  Returns the
names of the hooks whose `on_stop` was invoked (in order) and whether an
exception escaped the loop. -/
def runOnStopAll : List StopHook → List Nat × Bool
  | [] => ([], false)
  | h :: t =>
    if h.stop_raises then ([h.name], true)
    else
      let r := runOnStopAll t
      (h.name :: r.1, r.2)

/-- Result of one `Main.stopped` call: the playtime log after the call, the
hooks whose `on_stop` ran, and whether a hook exception escaped. -/
structure StopResult where
  tlog : List Wrapper.Event
  hooksRan : List Nat
  escaped : Bool
deriving DecidableEq, Repr

/-- `Main.stopped` with the hook loop made explicit: `lib.running` is
cleared, the stop-type log entry is written by `log_time` BEFORE the hook
loop starts, then the hooks' `on_stop` handlers run in order with no
per-hook isolation. -/
def stoppedWithHooks (killed : Bool) (hooks : List StopHook)
    (tlog0 : List Wrapper.Event) : StopResult :=
  let entry : Wrapper.Event := if killed then .DIE else .STOP
  let r := runOnStopAll hooks
  { tlog := tlog0 ++ [entry], hooksRan := r.1, escaped := r.2 }

/-- C3 counterexample: with two loaded hooks whose first `on_stop` raises,
the second hook's `on_stop` is never invoked and the exception escapes the
loop — refuting "every loaded hook's stop handler is invoked exactly once
even when an earlier hook's stop handler raises". -/
theorem c3_counterexample :
    (stoppedWithHooks false [⟨0, true⟩, ⟨1, false⟩] []).hooksRan = [0] ∧
    1 ∉ (stoppedWithHooks false [⟨0, true⟩, ⟨1, false⟩] []).hooksRan ∧
    (stoppedWithHooks false [⟨0, true⟩, ⟨1, false⟩] []).escaped = true := by
  decide

/-- C3 amended: during the Stopping transition the stop-type log entry is
written before any hook's stop handler runs, so it is written even when a
hook raises; the hook loop itself has no per-hook isolation — handlers run
in registration order up to and including the first raiser, later hooks
are skipped and the exception escapes; when no hook raises, every hook's
`on_stop` runs exactly once. -/
theorem c3_stop_hooks :
    ∀ (killed : Bool) (hooks : List StopHook) (tlog0 : List Wrapper.Event),
      (stoppedWithHooks killed hooks tlog0).tlog
        = tlog0 ++ [if killed then Wrapper.Event.DIE else Wrapper.Event.STOP] ∧
      (stoppedWithHooks killed hooks tlog0).hooksRan
        = (hooks.takeWhile (fun h => !h.stop_raises)).map StopHook.name
          ++ ((hooks.dropWhile (fun h => !h.stop_raises)).take 1).map
              StopHook.name ∧
      ((∀ h ∈ hooks, h.stop_raises = false) →
        (stoppedWithHooks killed hooks tlog0).hooksRan
            = hooks.map StopHook.name ∧
        (stoppedWithHooks killed hooks tlog0).escaped = false) := by
  intro killed hooks tlog0
  have hrun : ∀ (l : List StopHook),
      (runOnStopAll l).1
        = (l.takeWhile (fun h => !h.stop_raises)).map StopHook.name
          ++ ((l.dropWhile (fun h => !h.stop_raises)).take 1).map
              StopHook.name := by
    intro l
    induction l with
    | nil => rfl
    | cons h t ih =>
      by_cases hr : h.stop_raises <;>
        simp [runOnStopAll, List.takeWhile_cons, List.dropWhile_cons, hr, ih]
  have hok : ∀ (l : List StopHook), (∀ h ∈ l, h.stop_raises = false) →
      (runOnStopAll l).1 = l.map StopHook.name ∧ (runOnStopAll l).2 = false := by
    intro l hl
    induction l with
    | nil => exact ⟨rfl, rfl⟩
    | cons h t ih =>
      have hh : h.stop_raises = false := hl h (by simp)
      have ht := ih fun g hg => hl g (by simp [hg])
      simp [runOnStopAll, hh, ht.1, ht.2]
  refine ⟨rfl, hrun hooks, fun hall => ?_⟩
  have := hok hooks hall
  exact ⟨this.1, this.2⟩

/-- Witness for C3 (amended) at two well-behaved hooks: both run and
nothing escapes. -/
theorem c3_stop_hooks_witness :
    (∀ h ∈ ([⟨0, false⟩, ⟨1, false⟩] : List StopHook), h.stop_raises = false) ∧
    (stoppedWithHooks false [⟨0, false⟩, ⟨1, false⟩] []).hooksRan = [0, 1] ∧
    (stoppedWithHooks false [⟨0, false⟩, ⟨1, false⟩] []).escaped = false :=
  ⟨by decide,
    (c3_stop_hooks false [⟨0, false⟩, ⟨1, false⟩] []).2.2 (by decide)⟩

end HookRun

namespace FT

/-- Outcome of `FocusThread.run`'s mode selection: with no match criteria
the thread returns at once; with criteria but no window manager it
synthesizes a single `Main.focused` call; otherwise it enters the
window-search / `watch_focus` loop. -/
inductive FTOutcome
  | noEvents
  | unmanagedFocus
  | windowSearch
deriving DecidableEq, Repr

/-- `FocusThread.__init__`: `track_focus` is set when `cfg.window_title` or
`cfg.window_class` is a non-empty string. -/
def track_focus (window_title window_class : Str) : Bool :=
  !window_title.isEmpty || !window_class.isEmpty

/-- The branch structure at the top of `FocusThread.run`: `return` when not
tracking focus; one `self.call_handler(self.main.focused)` then `return`
when not in a window manager; otherwise the search loop. -/
def focusThreadMode (window_title window_class : Str)
    (in_window_manager : Bool) : FTOutcome :=
  if !track_focus window_title window_class then .noEvents
  else if !in_window_manager then .unmanagedFocus
  else .windowSearch

/-- The focus events synthesized directly by `FocusThread.run` itself
(before/instead of any `watch_focus` callbacks). -/
def syntheticEvents : FTOutcome → List Wrapper.Event
  | .noEvents => []
  | .unmanagedFocus => [Wrapper.Event.FOCUS]
  | .windowSearch => []

/-- C4 counterexample: with no window title and no window class pattern the
focus thread returns immediately — it skips window search but synthesizes
NO `Focus` event, refuting "synthesizes exactly one Focus event immediately
after launch". -/
theorem c4_counterexample :
    focusThreadMode [] [] true = .noEvents ∧
    syntheticEvents (focusThreadMode [] [] true) = [] ∧
    syntheticEvents (focusThreadMode [] [] true) ≠ [Wrapper.Event.FOCUS] := by
  decide

/-- C4 amended: when no window match criteria are given the focus thread
skips window search and exits immediately, synthesizing no focus event at
all (neither `Focus` nor `Unfocus`); the unmanaged mode that synthesizes
exactly one `Focus` and never an `Unfocus` is entered when match criteria
ARE present but the wrapper is not running under a window manager. -/
theorem c4_focus_thread_modes :
    ∀ (title cls : Str) (wm : Bool),
      (title = [] → cls = [] →
        focusThreadMode title cls wm = .noEvents ∧
        syntheticEvents (focusThreadMode title cls wm) = []) ∧
      (track_focus title cls = true → wm = false →
        focusThreadMode title cls wm = .unmanagedFocus ∧
        syntheticEvents (focusThreadMode title cls wm)
          = [Wrapper.Event.FOCUS] ∧
        Wrapper.Event.UNFOCUS ∉
          syntheticEvents (focusThreadMode title cls wm)) := by
  intro title cls wm
  constructor
  · intro ht hc
    subst ht; subst hc
    simp [focusThreadMode, track_focus, syntheticEvents]
  · intro htrack hwm
    subst hwm
    simp [focusThreadMode, htrack, syntheticEvents]

/-- Witness for C4 (amended): empty criteria give no events; a title
pattern with no window manager gives exactly one `Focus`. -/
theorem c4_focus_thread_modes_witness :
    (focusThreadMode [] [] true = .noEvents ∧
      syntheticEvents (focusThreadMode [] [] true) = []) ∧
    (focusThreadMode ['g'] [] false = .unmanagedFocus ∧
      syntheticEvents (focusThreadMode ['g'] [] false)
        = [Wrapper.Event.FOCUS] ∧
      Wrapper.Event.UNFOCUS ∉ syntheticEvents (focusThreadMode ['g'] [] false)) :=
  ⟨(c4_focus_thread_modes [] [] true).1 rfl rfl,
    (c4_focus_thread_modes ['g'] [] false).2 (by decide) rfl⟩

end FT

namespace Hooks

/-- An observable action id performed by a hook handler body. -/
abbrev Act := Nat

/-- A hook class as written by a hook module: each of the four lifecycle
methods is either overridden with a body (modelled by the trace of actions
that body performs) or inherited from `WrapperHook`. -/
structure HookDef where
  start_over : Option (List Act)
  stop_over : Option (List Act)
  focus_over : Option (List Act)
  unfocus_over : Option (List Act)
deriving DecidableEq, Repr

/-- Dynamic dispatch of `on_focus`: the `WrapperHook` default body is a
no-op. -/
def effOnFocus (h : HookDef) : List Act := h.focus_over.getD []

/-- Dynamic dispatch of `on_unfocus`: the `WrapperHook` default body is a
no-op. -/
def effOnUnfocus (h : HookDef) : List Act := h.unfocus_over.getD []

/-- Dynamic dispatch of `on_start`: the `WrapperHook` default body is
`await self.on_focus()`, i.e. it delegates to the (possibly overridden)
`on_focus`. -/
def effOnStart (h : HookDef) : List Act := h.start_over.getD (effOnFocus h)

/-- Dynamic dispatch of `on_stop`: the `WrapperHook` default body is
`await self.on_unfocus()`. -/
def effOnStop (h : HookDef) : List Act := h.stop_over.getD (effOnUnfocus h)

/-- Which hook method each lifecycle transition invokes (`Main.started`,
`Main.stopped`, `Main.focused`, `Main.unfocused`; a killed stop also runs
`on_stop`). -/
def dispatchTransition (t : Wrapper.Event) (h : HookDef) : List Act :=
  match t with
  | .START => effOnStart h
  | .STOP => effOnStop h
  | .FOCUS => effOnFocus h
  | .UNFOCUS => effOnUnfocus h
  | .DIE => effOnStop h

/-- C7: a hook overriding only `on_focus`/`on_unfocus` is also invoked on
`Start`/`Stop` (the default `on_start` delegates to `on_focus`, the default
`on_stop` to `on_unfocus`); conversely a hook overriding only `on_start`
runs nothing it defines on a `Focus` transition. -/
theorem c7_default_chaining :
    ∀ (f u s : List Act),
      dispatchTransition .START ⟨none, none, some f, some u⟩ = f ∧
      dispatchTransition .STOP ⟨none, none, some f, some u⟩ = u ∧
      dispatchTransition .FOCUS ⟨some s, none, none, none⟩ = [] := by
  intro f u s
  exact ⟨rfl, rfl, rfl⟩

end Hooks

namespace Wrapper

/-- The message vocabulary of `Main.log_time` from wrapper.py. -/
def message : Event → Str
  | .START => "game started".toList
  | .STOP => "game stopped".toList
  | .UNFOCUS => "user left".toList
  | .FOCUS => "user returned".toList
  | .DIE => "wrapper died".toList

/-- The line `Main.log_time` appends to the playtime log:
`f"\x7btimestamp\x7d: \x7bmessage\x7d\n"`, where the message gains an
` (instance: ...)` suffix only for Minecraft runs with `INST_ID` set
(modelled by `inst`). -/
def logLine (ts : Str) (e : Event) (inst : Option Str) : Str :=
  ts ++ ": ".toList ++ message e
    ++ (match inst with
        | some i => " (instance: ".toList ++ i ++ [')']
        | none => [])
    ++ ['\n']

end Wrapper

namespace TimeAnalysis

/-- Python `entry.split(": ")` from `parse` in time_analysis.py: split on
every non-overlapping occurrence of the two-character separator. -/
def splitCS : Str → List Str
  | [] => [[]]
  | [c] => [[c]]
  | c1 :: c2 :: rest =>
    if c1 = ':' ∧ c2 = ' ' then [] :: splitCS rest
    else
      match splitCS (c2 :: rest) with
      | [] => [[c1]]
      | r :: rs => (c1 :: r) :: rs

/-- Whether a string contains no occurrence of the `": "` separator. -/
def noCS : Str → Bool
  | [] => true
  | [_] => true
  | c1 :: c2 :: rest =>
    if c1 = ':' ∧ c2 = ' ' then false else noCS (c2 :: rest)

/-- The whitespace characters stripped by Python `str.strip()`. -/
def isPySpace (c : Char) : Bool :=
  c = ' ' || c = '\t' || c = '\n' || c = '\r' || c = '\x0B' || c = '\x0C'

/-- Python `action.strip()`. -/
def pystrip (s : Str) : Str :=
  ((s.dropWhile isPySpace).reverse.dropWhile isPySpace).reverse

/-- The `ACTIONS` dict from `parse` in time_analysis.py. -/
def ACTIONS (action : Str) : Option EventType :=
  if action = "game started".toList then some .START
  else if action = "game stopped".toList then some .STOP
  else if action = "wrapper died".toList then some .STOP
  else if action = "user left".toList then some .LEAVE
  else if action = "user returned".toList then some .RETURN
  else none

/-- The value `parse` returns, with the datetime kept as its raw text (this
layer never does date arithmetic; `datetime.fromisoformat` is injective on
the wrapper's timestamp format). -/
structure ParsedEvent where
  event : Option EventType
  dt : Str
  line_num : Nat
deriving DecidableEq, Repr

/-- `parse` from time_analysis.py: split the entry on `": "` (a count other
than two raises `ValueError`), strip the action, look it up in `ACTIONS`
(raising on unknown actions), and treat a leading `#` on the timestamp as
an annotation marker (event becomes `None`, the `#` is dropped). -/
def parse (entry : Str) (line_num : Nat) : Except Str ParsedEvent :=
  match splitCS entry with
  | [dt, action0] =>
    let action := pystrip action0
    match ACTIONS action with
    | none => .error ("Invalid action: ".toList ++ action)
    | some et =>
      match dt with
      | '#' :: dt2 => .ok ⟨none, dt2, line_num⟩
      | _ => .ok ⟨some et, dt, line_num⟩
  | _ => .error "ValueError: not enough values to unpack".toList

theorem splitCS_no_sep : ∀ {s : Str}, noCS s = true → splitCS s = [s] := by
  intro s
  induction s with
  | nil => intro _; rfl
  | cons c rest ih =>
    intro h
    cases rest with
    | nil => rfl
    | cons c2 rest2 =>
      have hcond : ¬(c = ':' ∧ c2 = ' ') := by
        intro hc
        simp [noCS, hc] at h
      have htail : noCS (c2 :: rest2) = true := by
        simpa [noCS, hcond] using h
      simp [splitCS, hcond, ih htail]

theorem splitCS_append :
    ∀ (ts rest : Str), noCS ts = true →
      splitCS (ts ++ ':' :: ' ' :: rest) = ts :: splitCS rest := by
  intro ts
  induction ts with
  | nil =>
    intro rest _
    simp [splitCS]
  | cons c ts2 ih =>
    intro rest h
    cases ts2 with
    | nil =>
      have : splitCS (':' :: ' ' :: rest) = [] :: splitCS rest := by
        simp [splitCS]
      simp [splitCS, this]
    | cons c2 ts3 =>
      have hcond : ¬(c = ':' ∧ c2 = ' ') := by
        intro hc
        simp [noCS, hc] at h
      have htail : noCS (c2 :: ts3) = true := by
        simpa [noCS, hcond] using h
      have ihx := ih rest htail
      simp only [List.cons_append] at ihx ⊢
      simp [splitCS, hcond, ihx]

end TimeAnalysis

/-- The event type each `log_time` message parses back to: the composition
of `Wrapper.message` with the `ACTIONS` vocabulary ("user left" is a
`LEAVE`, "user returned" a `RETURN`, and both "game stopped" and "wrapper
died" are `STOP`s). -/
def analysisEventType : Wrapper.Event → TimeAnalysis.EventType
  | .START => .START
  | .STOP => .STOP
  | .UNFOCUS => .LEAVE
  | .FOCUS => .RETURN
  | .DIE => .STOP

theorem message_facts : ∀ (e : Wrapper.Event),
    TimeAnalysis.noCS (Wrapper.message e ++ ['\n']) = true ∧
    TimeAnalysis.pystrip (Wrapper.message e ++ ['\n']) = Wrapper.message e ∧
    TimeAnalysis.ACTIONS (Wrapper.message e) = some (analysisEventType e) := by
  intro e
  cases e <;> decide

theorem parse_logLine (ts : Str) (e : Wrapper.Event) (n : Nat)
    (h1 : TimeAnalysis.noCS ts = true) (h2 : ts.head? ≠ some '#') :
    TimeAnalysis.parse (Wrapper.logLine ts e none) n
      = .ok ⟨some (analysisEventType e), ts, n⟩ := by
  have hline : Wrapper.logLine ts e none
      = ts ++ ':' :: ' ' :: (Wrapper.message e ++ ['\n']) := by
    have hcs : ": ".toList = [':', ' '] := rfl
    simp [Wrapper.logLine, hcs]
  have hsplit : TimeAnalysis.splitCS (Wrapper.logLine ts e none)
      = [ts, Wrapper.message e ++ ['\n']] := by
    rw [hline, TimeAnalysis.splitCS_append ts _ h1,
      TimeAnalysis.splitCS_no_sep (message_facts e).1]
  unfold TimeAnalysis.parse
  rw [hsplit]
  simp only [(message_facts e).2.1, (message_facts e).2.2]
  cases ts with
  | nil => rfl
  | cons c t =>
    have hc : c ≠ '#' := by
      intro hc
      exact h2 (by simp [hc])
    simp [hc]

/-- C6: for every sequence of lifecycle transitions written through
`Main.log_time` (with the fixed description vocabulary, i.e. no Minecraft
instance suffix), parsing the emitted lines back with `parse` reproduces,
in order, the event type corresponding to each written transition,
timestamps ignored. -/
theorem c6_log_round_trip :
    ∀ (entries : List (Str × Wrapper.Event)),
      (∀ p ∈ entries, TimeAnalysis.noCS p.1 = true ∧ p.1.head? ≠ some '#') →
      (entries.map fun p =>
          (TimeAnalysis.parse (Wrapper.logLine p.1 p.2 none) 0).map
            TimeAnalysis.ParsedEvent.event)
        = entries.map fun p => Except.ok (some (analysisEventType p.2)) := by
  intro entries h
  induction entries with
  | nil => rfl
  | cons p rest ih =>
    have hp := h p (by simp)
    have hrest := ih fun q hq => h q (by simp [hq])
    simp only [List.map_cons, hrest, List.cons.injEq, and_true]
    rw [parse_logLine p.1 p.2 0 hp.1 hp.2]
    rfl

/-- Witness for C6 at a two-line log with arrow-formatted timestamps. -/
theorem c6_log_round_trip_witness :
    (∀ p ∈ ([("2024-01-01T00:00:00.000+00:00".toList, Wrapper.Event.START),
        ("2024-01-01T01:00:00.000+00:00".toList, Wrapper.Event.DIE)]
          : List (Str × Wrapper.Event)),
      TimeAnalysis.noCS p.1 = true ∧ p.1.head? ≠ some '#') ∧
    ([("2024-01-01T00:00:00.000+00:00".toList, Wrapper.Event.START),
        ("2024-01-01T01:00:00.000+00:00".toList, Wrapper.Event.DIE)].map
          fun p =>
            (TimeAnalysis.parse (Wrapper.logLine p.1 p.2 none) 0).map
              TimeAnalysis.ParsedEvent.event)
      = [("2024-01-01T00:00:00.000+00:00".toList, Wrapper.Event.START),
          ("2024-01-01T01:00:00.000+00:00".toList, Wrapper.Event.DIE)].map
            fun p => Except.ok (some (analysisEventType p.2)) :=
  ⟨by decide, c6_log_round_trip _ (by decide)⟩
